import Mathlib

/-!
Shallow embedding of the IPO ingestion/extraction/caching pipeline of
`server/src/services/ipo.py` (class `IpoService` and its module-level
helpers), together with the data model of `server/src/schemas/ipo.py`.

Pure Python string/date/price manipulation is translated directly.  The
external collaborators (HTTP transport, the BeautifulSoup HTML library,
pdfplumber, the Azure OpenAI backend) are modelled at their interface
boundary: HTML tables as lists of rows of cells (each cell carrying its
string descendants and anchor hrefs in document order), network and
backend calls as `Except`-valued results supplied through an environment
record.  Raising a Python exception is modelled as `Except.error`;
a function that cannot raise is total.
-/

namespace CapitalLens

/-! ## Python string primitives -/

/-- Characters Python `str.strip()` removes (the `str.isspace` set). -/
def pyWsChars : List Char :=
  [' ', '\t', '\n', '\r', '\x0b', '\x0c',
   '\x1c', '\x1d', '\x1e', '\x1f', '\x85', '\xa0', ' ', ' ', '　']

def isPyWs (c : Char) : Bool := pyWsChars.contains c

/-- Python `str.lstrip()` on a character list. -/
def pyLstripList (l : List Char) : List Char := l.dropWhile isPyWs

/-- Python `str.strip()` on a character list. -/
def pyStripList (l : List Char) : List Char :=
  ((l.dropWhile isPyWs).reverse.dropWhile isPyWs).reverse

/-- Python `str.strip()`. -/
def pyStripStr (s : String) : String := ⟨pyStripList s.data⟩

/-- Model: `digitsToNat` folds a run of ASCII digits into the `int(...)` value. -/
def digitsToNat (l : List Char) : Nat :=
  l.foldl (fun a c => a * 10 + (c.toNat - 48)) 0

/-- Model: `pat` occurs as a contiguous substring of `s` (Python `in` / `re.search`
on a literal pattern). -/
def listContainsSub (pat : List Char) : List Char → Bool
  | [] => pat.isEmpty
  | c :: rest => pat.isPrefixOf (c :: rest) || listContainsSub pat rest

def strContains (s pat : String) : Bool := listContainsSub pat.data s.data

/-- Python `str.replace(pat, rep)`: left-to-right, non-overlapping.  On a
match the scan resumes after the matched pattern: `rest.drop (pat.length - 1)`
is `(c :: rest).drop pat.length` for the nonempty patterns used at every
call site (the `pat ≠ []` guard keeps the empty pattern inert).  The
fuel argument only bounds the recursion: every step consumes at least one
input character, so `l.length` fuel always suffices. -/
def replaceSubFuel (pat rep : List Char) : Nat → List Char → List Char
  | _, [] => []
  | 0, l => l
  | fuel + 1, c :: rest =>
    if pat.isPrefixOf (c :: rest) ∧ pat ≠ [] then
      rep ++ replaceSubFuel pat rep fuel (rest.drop (pat.length - 1))
    else
      c :: replaceSubFuel pat rep fuel rest

def replaceSub (pat rep l : List Char) : List Char :=
  replaceSubFuel pat rep l.length l

/-! ## Price parsing (`IpoService._parse_price_text`) -/

/-- The characters surviving `re.sub(r"[^\d.]", "", text.replace(",", "").strip())`:
commas removed, stripped, then everything but digits and `.` dropped. -/
def priceDigits (text : String) : List Char :=
  (pyStripList (text.data.filter (fun c => c ≠ ','))).filter
    (fun c => c.isDigit || c = '.')

/-- Fractional part of a digits-and-dots string: everything after the
first `.` (empty when there is no `.`). -/
def fracPart (l : List Char) : List Char :=
  (l.dropWhile (fun c => c ≠ '.')).drop 1

/-- Integer part of a digits-and-dots string: everything before the
first `.`. -/
def intPart (l : List Char) : List Char :=
  l.takeWhile (fun c => c ≠ '.')

/-- The exact decimal value `float(l)` denotes for a digits-and-dots
string `l` with at most one dot, as a rational. -/
def ratOfDigits (l : List Char) : ℚ :=
  let den : Nat := (10 : Nat) ^ (fracPart l).length
  let num : Nat := digitsToNat (intPart l) * den + digitsToNat (fracPart l)
  mkRat (Int.ofNat num) den

/-- Python `float(l)` on a string of digits and dots: succeeds exactly when
at least one digit is present and at most one dot (so the empty string
fails, matching the `if digits:` guard at the call site); a `ValueError`
is modelled as `none`. -/
def floatOfDigits (l : List Char) : Option ℚ :=
  if l.any Char.isDigit && l.count '.' ≤ 1 then some (ratOfDigits l)
  else none

/-- Model: `IpoService._parse_price_text`: remove commas, strip, drop every
character that is not a digit or dot, then try `float`; total, never
raises. -/
def parse_price_text (text : String) : Option ℚ :=
  floatOfDigits (priceDigits text)

/-! ## Date parsing (`IpoService._parse_date`) -/

/-- A calendar date as `datetime.date` holds it. -/
structure DateYMD where
  year : Nat
  month : Nat
  day : Nat
deriving DecidableEq, Repr

/-- Gregorian leap year, the rule `datetime` uses. -/
def isLeapYear (y : Nat) : Bool :=
  (y % 4 = 0 && y % 100 ≠ 0) || y % 400 = 0

def daysInMonth (y m : Nat) : Nat :=
  if m = 2 then (if isLeapYear y then 29 else 28)
  else if m = 4 ∨ m = 6 ∨ m = 9 ∨ m = 11 then 30
  else 31

/-- The arguments `datetime.date(y, m, d)` accepts; anything else raises
`ValueError` (per the `datetime` documentation and the pure-Python
reference implementation), which `_parse_date` catches. -/
def isValidDate (d : DateYMD) : Bool :=
  1 ≤ d.year && d.year ≤ 9999 && 1 ≤ d.month && d.month ≤ 12 &&
    1 ≤ d.day && d.day ≤ daysInMonth d.year d.month

/-- Scan for the `)` closing a parenthesized group, as the non-greedy
`\(.*?\)` does: `.` cannot cross a newline, so a `\n` before the next `)`
means no match.  Returns the suffix after the `)`. -/
def findCloseParen : List Char → Option (List Char)
  | [] => none
  | c :: rest =>
    if c = ')' then some rest
    else if c = '\n' then none
    else findCloseParen rest

/-- Model: `re.sub(r"\(.*?\)", "", raw)`: delete each leftmost, shortest
parenthesized group; an unmatched `(` (or one whose group would span a
newline) is kept verbatim.  Every step consumes at least one input
character, so `l.length` fuel always suffices. -/
def removeParensFuel : Nat → List Char → List Char
  | _, [] => []
  | 0, l => l
  | fuel + 1, c :: rest =>
    if c = '(' then
      match findCloseParen rest with
      | some rest' => removeParensFuel fuel rest'
      | none => c :: removeParensFuel fuel rest
    else c :: removeParensFuel fuel rest

def removeParens (l : List Char) : List Char :=
  removeParensFuel l.length l

/-- Case-insensitive literal match of the (lowercase) pattern against a
prefix of the input, returning the rest. -/
def matchCI : List Char → List Char → Option (List Char)
  | [], l => some l
  | _ :: _, [] => none
  | p :: ps, c :: cs => if c.toLower = p then matchCI ps cs else none

/-- The month abbreviations `%b` accepts in the C locale, lowercase. -/
def monthAbbrevs : List String :=
  ["jan", "feb", "mar", "apr", "may", "jun",
   "jul", "aug", "sep", "oct", "nov", "dec"]

def findMonth : List String → Nat → List Char → Option (Nat × List Char)
  | [], _, _ => none
  | a :: rest, k, l =>
    match matchCI a.data l with
    | some l' => some (k, l')
    | none => findMonth rest (k + 1) l

/-- Model: `%b`: one of the twelve month abbreviations, case-insensitively. -/
def parseMonthAbbrev (l : List Char) : Option (Nat × List Char) :=
  findMonth monthAbbrevs 1 l

/-- A literal character of the format string. -/
def expectChar (c : Char) : List Char → Option (List Char)
  | [] => none
  | x :: rest => if x = c then some rest else none

/-- Whitespace in the format becomes `\s+`: at least one whitespace
character, consumed greedily. -/
def eatWs1 : List Char → Option (List Char)
  | [] => none
  | c :: rest => if isPyWs c then some (rest.dropWhile isPyWs) else none

/-- Model: `%d` (also used for `%m` with another bound): a run of one or two
digits whose value lies in `1..hi`; the following format element is never
a digit, so the maximal run is what the regex consumes. -/
def parseNum2 (hi : Nat) (l : List Char) : Option (Nat × List Char) :=
  let ds := l.takeWhile Char.isDigit
  if (ds.length = 1 ∨ ds.length = 2) ∧ 1 ≤ digitsToNat ds ∧ digitsToNat ds ≤ hi then
    some (digitsToNat ds, l.dropWhile Char.isDigit)
  else none

/-- Model: `%Y`: exactly four digits. -/
def parseYear4 (l : List Char) : Option (Nat × List Char) :=
  let ds := l.takeWhile Char.isDigit
  if ds.length = 4 then some (digitsToNat ds, l.dropWhile Char.isDigit)
  else none

/-- Syntactic `strptime` match for `"%b. %d, %Y"`. -/
def strptimeFmt1 (l : List Char) : Option (Nat × Nat × Nat) := do
  let (m, l) ← parseMonthAbbrev l
  let l ← expectChar '.' l
  let l ← eatWs1 l
  let (d, l) ← parseNum2 31 l
  let l ← expectChar ',' l
  let l ← eatWs1 l
  let (y, l) ← parseYear4 l
  if l = [] then some (y, m, d) else none

/-- Syntactic `strptime` match for `"%b %d, %Y"`. -/
def strptimeFmt2 (l : List Char) : Option (Nat × Nat × Nat) := do
  let (m, l) ← parseMonthAbbrev l
  let l ← eatWs1 l
  let (d, l) ← parseNum2 31 l
  let l ← expectChar ',' l
  let l ← eatWs1 l
  let (y, l) ← parseYear4 l
  if l = [] then some (y, m, d) else none

/-- Syntactic `strptime` match for `"%Y/%m/%d"`. -/
def strptimeFmt3 (l : List Char) : Option (Nat × Nat × Nat) := do
  let (y, l) ← parseYear4 l
  let l ← expectChar '/' l
  let (m, l) ← parseNum2 12 l
  let l ← expectChar '/' l
  let (d, l) ← parseNum2 31 l
  if l = [] then some (y, m, d) else none

/-- Syntactic `strptime` match for `"%Y年%m月%d日"`. -/
def strptimeFmt4 (l : List Char) : Option (Nat × Nat × Nat) := do
  let (y, l) ← parseYear4 l
  let l ← expectChar '年' l
  let (m, l) ← parseNum2 12 l
  let l ← expectChar '月' l
  let (d, l) ← parseNum2 31 l
  let l ← expectChar '日' l
  if l = [] then some (y, m, d) else none

/-- Model: `datetime.strptime(clean, fmt).date()`: the regex match followed by the
`date` construction, whose `ValueError` on an impossible calendar date is
caught by the surrounding `try`/`except` (so the format just fails). -/
def tryStrptime (fmt : List Char → Option (Nat × Nat × Nat)) (l : List Char) :
    Option DateYMD :=
  match fmt l with
  | some (y, m, d) => if isValidDate ⟨y, m, d⟩ then some ⟨y, m, d⟩ else none
  | none => none

/-- Model: `re.findall(r"\d+", clean)`: the maximal runs of digits, in order.
Every step consumes at least one input character, so `l.length` fuel
always suffices. -/
def digitRunsFuel : Nat → List Char → List (List Char)
  | _, [] => []
  | 0, _ => []
  | fuel + 1, c :: rest =>
    if c.isDigit then
      (c :: rest.takeWhile Char.isDigit) :: digitRunsFuel fuel (rest.dropWhile Char.isDigit)
    else digitRunsFuel fuel rest

def digitRuns (l : List Char) : List (List Char) :=
  digitRunsFuel l.length l

/-- The digit fallback of `_parse_date`: the first three digit runs read
positionally as year/month/day, if that makes a constructible date. -/
def dateFromDigitRuns (l : List Char) : Option DateYMD :=
  match digitRuns l with
  | y :: m :: d :: _ =>
    if isValidDate ⟨digitsToNat y, digitsToNat m, digitsToNat d⟩ then
      some ⟨digitsToNat y, digitsToNat m, digitsToNat d⟩
    else none
  | _ => none

/-- Model: `clean = re.sub(r"\(.*?\)", "", raw).strip()` in `_parse_date`. -/
def cleanedDate (raw : String) : List Char :=
  pyStripList (removeParens raw.data)

/-- Model: `IpoService._parse_date`: strip parenthesized content and whitespace,
try the four formats in order, then the digit fallback, else
`date.today()` (the `today` argument).  Total: every Python-level
exception on the way is caught inside. -/
def parse_date (today : DateYMD) (raw : String) : DateYMD :=
  let clean := cleanedDate raw
  match tryStrptime strptimeFmt1 clean with
  | some d => d
  | none =>
    match tryStrptime strptimeFmt2 clean with
    | some d => d
    | none =>
      match tryStrptime strptimeFmt3 clean with
      | some d => d
      | none =>
        match tryStrptime strptimeFmt4 clean with
        | some d => d
        | none =>
          match dateFromDigitRuns clean with
          | some d => d
          | none => today

/-! ## HTML table model and the listing parser (`IpoService._parse_html`)

BeautifulSoup is an external collaborator; a table is modelled at its
interface as rows (`<tr>`) of cells (`<td>`), each cell carrying its
`NavigableString` descendants in document order and the `href` values of
its anchor descendants in document order (anchors without an `href` are
never matched by an `href=`-pattern search and so are omitted). -/

structure Cell where
  nodes : List String
  anchors : List String
deriving DecidableEq, Repr

abbrev Row := List Cell

/-- Model: `cell.get_text(strip=True)`: the stripped string descendants, empties
dropped, concatenated. -/
def cellText (c : Cell) : String :=
  String.join ((c.nodes.map pyStripStr).filter (fun s => s ≠ ""))

/-- Model: `IpoService._extract_company_name`: the first string descendant with
non-empty stripped text, stripped; `""` when there is none. -/
def extract_company_name (c : Cell) : String :=
  ((c.nodes.map pyStripStr).find? (fun s => s ≠ "")).getD ""

/-- Model: `IpoService._normalize_company_name`. -/
def normalize_company_name (name : String) : String :=
  ⟨replaceSub "㈱".data "株式会社".data
    (replaceSub "(株)".data "株式会社".data
      (replaceSub "（株）".data "株式会社".data (pyStripList name.data)))⟩

def JPX_BASE_URL : String := "https://www.jpx.co.jp"

/-- Python `base.rstrip("/")`. -/
def rstripSlash (s : String) : String :=
  ⟨(s.data.reverse.dropWhile (fun c => c = '/')).reverse⟩

/-- Module-level `_resolve_url`. -/
def resolve_url (base href : String) : String :=
  if href.startsWith "http" then href
  else if href.startsWith "/" then rstripSlash base ++ href
  else rstripSlash base ++ "/" ++ href

/-- Model: `re.compile(r"\.pdf", re.IGNORECASE)` searched in an `href`. -/
def hrefMatchesPdf (h : String) : Bool :=
  listContainsSub ".pdf".data (h.data.map Char.toLower)

/-- Model: `col.find("a", href=re.compile(r"\.pdf", re.I))`: first matching
anchor of the cell.  A matching href necessarily contains `".pdf"` and is
therefore non-empty, so the `if href:` guard in the source is always
taken on a match. -/
def findPdfInCell (c : Cell) : Option String :=
  c.anchors.find? hrefMatchesPdf

/-- Module-level `_find_pdf_in_cols`. -/
def find_pdf_in_cols : List Cell → Option String
  | [] => none
  | c :: rest =>
    match findPdfInCell c with
    | some h => some (resolve_url JPX_BASE_URL h)
    | none => find_pdf_in_cols rest

/-- Cell access `cols[k]` (every use in the source is guarded by a length
check, so the default is never read). -/
def cellAt (r : Row) (k : Nat) : Cell := r.getD k ⟨[], []⟩

/-- Model: `schemas.ipo.IpoItem`. -/
structure IpoItem where
  company_name : String
  ticker : String
  market : String
  listing_date : DateYMD
  offering_price : Option ℚ
  outline_pdf_url : Option String
  generated_at : Int
deriving DecidableEq, Repr

/-- The row loop of `IpoService._parse_html`: two physical rows per
listing when the first row has at least 8 cells, single-row advance
otherwise; entries missing company name or ticker are skipped after the
index advance. -/
def parseRows (today : DateYMD) (now : Int) : List Row → List IpoItem
  | [] => []
  | row1 :: rest =>
    if row1.length < 8 then parseRows today now rest
    else
      let raw_date := cellText (cellAt row1 0)
      let company_name := normalize_company_name (extract_company_name (cellAt row1 1))
      let ticker := cellText (cellAt row1 2)
      let offering_price_raw := cellText (cellAt row1 6)
      let pdf1 := find_pdf_in_cols row1
      match rest with
      | row2 :: rest2 =>
        let market := if row2.isEmpty then "" else cellText (cellAt row2 0)
        let outline_pdf_url :=
          if pdf1 = none ∧ ¬row2.isEmpty then find_pdf_in_cols row2 else pdf1
        (if company_name = "" ∨ ticker = "" then []
         else [⟨company_name, ticker, market, parse_date today raw_date,
               parse_price_text offering_price_raw, outline_pdf_url, now⟩])
          ++ parseRows today now rest2
      | [] =>
        if company_name = "" ∨ ticker = "" then []
        else [⟨company_name, ticker, "", parse_date today raw_date,
              parse_price_text offering_price_raw, pdf1, now⟩]

/-- One fetched listing page at the BeautifulSoup boundary:
`tableRows` is the rows of the table located by the class-pattern search
with first-table fallback (through `tbody` when present), `none` when no
table element exists on the page. -/
structure Page where
  tableRows : Option (List Row)
deriving DecidableEq, Repr

/-- Model: `core.exceptions`: the two recoverable error classes. -/
inductive IpoErr where
  | externalAPI (source detail : String)
  | dataParsing (source detail : String)
deriving DecidableEq, Repr

/-- Model: `IpoService._parse_html`: hard failure only when no table element is
found; otherwise the row loop. -/
def parse_html (today : DateYMD) (now : Int) (p : Page) :
    Except IpoErr (List IpoItem) :=
  match p.tableRows with
  | none => .error (.dataParsing "JPX" "No table element found on page.")
  | some rows => .ok (parseRows today now rows)

/-- Model: `IpoService._fetch_and_parse`: the HTTP GET (timeout, status and
transport errors become `ExternalAPIError`) composed with `_parse_html`;
`fetch` is the transport outcome. -/
def fetch_and_parse (fetch : Except IpoErr Page) (today : DateYMD) (now : Int) :
    Except IpoErr (List IpoItem) :=
  match fetch with
  | .error e => .error e
  | .ok p => parse_html today now p

/-- Model: `schemas.ipo.IpoLatestResponse`. -/
structure IpoLatestResponse where
  items : List IpoItem
  total_count : Nat
  generated_at : Int
deriving DecidableEq, Repr

/-- Model: `IpoService.get_latest_ipos`: returns the parsed items, and the empty
response when the list is empty or `_fetch_and_parse` raised either
recoverable error. -/
def get_latest_ipos (fetch : Except IpoErr Page) (today : DateYMD) (now : Int) :
    IpoLatestResponse :=
  match fetch_and_parse fetch today now with
  | .ok items => if items.isEmpty then ⟨[], 0, now⟩ else ⟨items, items.length, now⟩
  | .error _ => ⟨[], 0, now⟩

/-- Company name reconstructed from the first physical row of a pair. -/
def rowCompany (r : Row) : String :=
  normalize_company_name (extract_company_name (cellAt r 1))

/-- Ticker code reconstructed from the first physical row of a pair. -/
def rowTicker (r : Row) : String := cellText (cellAt r 2)

/-- Market segment taken from the second physical row of a pair. -/
def pairMarket (r2 : Row) : String :=
  if r2.isEmpty then "" else cellText (cellAt r2 0)

/-- Prospectus link of a pair: first row first, second row as fallback. -/
def pairPdf (r1 r2 : Row) : Option String :=
  if find_pdf_in_cols r1 = none ∧ ¬r2.isEmpty then find_pdf_in_cols r2
  else find_pdf_in_cols r1

/-- The single record a well-formed pair contributes (empty when company
name or ticker is missing). -/
def pairItems (today : DateYMD) (now : Int) (r1 r2 : Row) : List IpoItem :=
  if rowCompany r1 = "" ∨ rowTicker r1 = "" then []
  else [⟨rowCompany r1, rowTicker r1, pairMarket r2,
        parse_date today (cellText (cellAt r1 0)),
        parse_price_text (cellText (cellAt r1 6)), pairPdf r1 r2, now⟩]

/-! ## Summarizer (`IpoService._summarize_with_llm`) -/

/-- The line boundaries Python `str.splitlines` recognizes (besides the
combined `"\r\n"`). -/
def isLineBreak (c : Char) : Bool :=
  c = '\n' || c = '\r' || c = '\x0b' || c = '\x0c' ||
    c = '\x1c' || c = '\x1d' || c = '\x1e' || c = '\x85' ||
    c = ' ' || c = ' '

def pySplitlinesGo : List Char → List Char → List (List Char)
  | [], acc => [acc.reverse]
  | '\r' :: '\n' :: rest, acc =>
    acc.reverse :: (if rest.isEmpty then [] else pySplitlinesGo rest [])
  | c :: rest, acc =>
    if isLineBreak c then
      acc.reverse :: (if rest.isEmpty then [] else pySplitlinesGo rest [])
    else pySplitlinesGo rest (c :: acc)

/-- Python `content.splitlines()`: no trailing empty line, and the empty
string yields no lines. -/
def pySplitlines (s : String) : List String :=
  if s.data.isEmpty then [] else (pySplitlinesGo s.data []).map (fun l => ⟨l⟩)

/-- The three glyphs `str.lstrip("・•-")` removes and the filter looks
for. -/
def bulletGlyphs : List Char := ['・', '•', '-']

/-- The list-comprehension filter: the stripped line is non-empty and
starts with one of the three glyphs. -/
def isBulletLine (line : String) : Bool :=
  let st := pyStripList line.data
  !st.isEmpty &&
    (st.head? == some '・' || st.head? == some '•' || st.head? == some '-')

/-- The list-comprehension map: `line.lstrip("・•-").strip()` — leading
glyphs are removed from the original, unstripped line, then whitespace is
stripped. -/
def bulletOfLine (line : String) : String :=
  pyStripStr ⟨line.data.dropWhile (fun c => bulletGlyphs.contains c)⟩

/-- Bullet extraction from the completion text (lines 182–193 of the
service): keep glyph-prefixed lines, else the whole stripped completion
as the single bullet. -/
def extractBullets (content : String) : List String :=
  let bullets := ((pySplitlines content).filter isBulletLine).map bulletOfLine
  if bullets.isEmpty then [pyStripStr content] else bullets

/-- Modelled from the spec claim wording, for comparison only: the claim
says the kept line has "the glyph and surrounding whitespace removed", so
glyph removal would act on the stripped line. -/
def claimBulletOfLine (line : String) : String :=
  pyStripStr ⟨(pyStripList line.data).dropWhile (fun c => bulletGlyphs.contains c)⟩

/-- The suffix of the unconfigured-backend placeholder after the code
(two adjacent Python string literals, concatenated). -/
def placeholderSuffix : String :=
  " の要約を生成するには Azure OpenAI の設定が必要です。（AZ_OPENAI_ENDPOINT / AZ_OPENAI_API_KEY を設定してください）"

/-- The f-string placeholder bullet returned when Azure OpenAI is not
configured. -/
def placeholderBullet (code : String) : String :=
  "銘柄コード " ++ code ++ placeholderSuffix

/-- Model: `user_content` as built in `_summarize_with_llm`: the stripped text
when non-empty, otherwise the source-unavailable notice. -/
def llmUserContent (code text : String) : String :=
  if pyStripStr text = "" then
    "銘柄コード " ++ code ++
      " の会社概要テキストを取得できませんでした。入手可能な情報の範囲で概要をまとめてください。"
  else pyStripStr text

/-- The outcomes of the external collaborators of one summary request,
plus the two configuration settings read from the environment.
`locator` is the result of `_find_pdf_url_for_code` (that helper catches
its own fetch failure and returns `None`); `extract` is
`_extract_pdf_text`, which may raise; `completion` is the Azure OpenAI
chat-completion call on the given user content (the `or ""` on a missing
message content is folded into the returned string), which may raise. -/
structure SummaryEnv where
  locator : Option String
  extract : String → Except Unit String
  endpoint : String
  apiKey : String
  completion : String → Except Unit String

/-- Model: `IpoService._summarize_with_llm`: placeholder when `AZ_OPENAI_ENDPOINT`
or `AZ_OPENAI_API_KEY` is empty (Python falsiness of the settings
strings); otherwise the backend call on the first 8000 characters of the
user content, whose failure propagates. -/
def summarize_with_llm (env : SummaryEnv) (code text : String) :
    Except Unit (List String) :=
  if env.endpoint = "" ∨ env.apiKey = "" then
    .ok [placeholderBullet code]
  else
    match env.completion ⟨(llmUserContent code text).data.take 8000⟩ with
    | .error e => .error e
    | .ok content => .ok (extractBullets content)

/-- Model: `schemas.ipo.IpoSummaryResponse`. -/
structure IpoSummaryResponse where
  code : String
  bullets : List String
  cached : Bool
  generated_at : Int
deriving DecidableEq, Repr

/-- Model: `_SUMMARY_CACHE`: response paired with its insertion time, keyed by
code. -/
abbrev SummaryCache := List (String × IpoSummaryResponse × Int)

/-- Model: `_CACHE_TTL = timedelta(hours=24)`, in seconds. -/
def cacheTTL : Int := 24 * 60 * 60

/-- Model: `_SUMMARY_CACHE[code] = (resp, now)`: dict assignment overwrites the
key. -/
def cacheInsert (code : String) (entry : IpoSummaryResponse × Int)
    (cache : SummaryCache) : SummaryCache :=
  (code, entry) :: cache.eraseP (fun kv => kv.1 == code)

/-- The `text` variable of `get_ipo_summary`: empty on a locator miss,
the extracted text on success, empty again when extraction raises (the
`except Exception` branch). -/
def pdfText (env : SummaryEnv) : String :=
  match env.locator with
  | none => ""
  | some url =>
    match env.extract url with
    | .ok t => t
    | .error _ => ""

/-- The cache-miss path of `get_ipo_summary` (lines 72–93): locator,
extraction, summarization, store with `cached=False` and
`generated_at=now`. -/
def summaryMiss (env : SummaryEnv) (cache : SummaryCache) (now : Int)
    (code : String) : Except Unit (IpoSummaryResponse × SummaryCache) :=
  match summarize_with_llm env code (pdfText env) with
  | .error e => .error e
  | .ok bullets =>
    let resp : IpoSummaryResponse := ⟨code, bullets, false, now⟩
    .ok (resp, cacheInsert code (resp, now) cache)

/-- Model: `IpoService.get_ipo_summary`: serve a fresh cache entry as a copy
with `cached=True` and the original `generated_at`, otherwise run the
miss path.  Returns the response together with the cache state after the
call. -/
def get_ipo_summary (env : SummaryEnv) (cache : SummaryCache) (now : Int)
    (code : String) : Except Unit (IpoSummaryResponse × SummaryCache) :=
  match List.lookup code cache with
  | some (cachedResp, cachedAt) =>
    if now - cachedAt < cacheTTL then
      .ok (⟨cachedResp.code, cachedResp.bullets, true, cachedResp.generated_at⟩,
        cache)
    else summaryMiss env cache now code
  | none => summaryMiss env cache now code

/-- A backend environment that is configured but whose completion call
raises (unreachable endpoint). -/
def envLlmDown : SummaryEnv :=
  ⟨none, fun _ => Except.error (), "https://example.invalid", "key",
   fun _ => Except.error ()⟩

/-- A backend environment with no endpoint configured. -/
def envUnconfigured : SummaryEnv :=
  ⟨none, fun _ => Except.error (), "", "", fun _ => Except.error ()⟩

/-- A backend environment with an endpoint but no API key. -/
def envNoKey : SummaryEnv :=
  ⟨some "https://www.jpx.co.jp/doc.pdf", fun _ => Except.ok "text",
   "https://example.invalid", "", fun _ => Except.ok "・x"⟩

end CapitalLens

namespace CapitalLens

example : parse_date ⟨2025, 1, 1⟩ "Apr. 02, 2026(Feb. 26, 2026)" = ⟨2026, 4, 2⟩ := by decide
example : parse_date ⟨2025, 1, 1⟩ "2026/02/20" = ⟨2026, 2, 20⟩ := by decide
example : parse_date ⟨2025, 1, 1⟩ "2026年02月20日" = ⟨2026, 2, 20⟩ := by decide
example : parse_date ⟨2025, 1, 1⟩ "garbage" = ⟨2025, 1, 1⟩ := by decide
example : parse_date ⟨2025, 1, 1⟩ "2026-04-02" = ⟨2026, 4, 2⟩ := by decide
example : parse_date ⟨2025, 1, 1⟩ "Feb. 31, 2026" = ⟨2025, 1, 1⟩ := by decide

theorem tryStrptime_valid {fmt : List Char → Option (Nat × Nat × Nat)}
    {l : List Char} {d : DateYMD} (h : tryStrptime fmt l = some d) :
    isValidDate d = true := by
  unfold tryStrptime at h
  split at h
  · split at h
    · cases h
      assumption
    · cases h
  · cases h

theorem dateFromDigitRuns_valid {l : List Char} {d : DateYMD}
    (h : dateFromDigitRuns l = some d) : isValidDate d = true := by
  unfold dateFromDigitRuns at h
  split at h
  · split at h
    · cases h
      assumption
    · cases h
  · cases h

/-- C5: `_parse_date` is total (never raises) and always returns a valid
calendar date; it prefers the first matching format of its cascade, and
when every format and the digit fallback fail it returns the current
date. -/
theorem c5_parse_date_total_valid (today : DateYMD) (raw : String)
    (htoday : isValidDate today = true) :
    isValidDate (parse_date today raw) = true ∧
    (∀ d, tryStrptime strptimeFmt1 (cleanedDate raw) = some d →
      parse_date today raw = d) ∧
    (tryStrptime strptimeFmt1 (cleanedDate raw) = none →
     tryStrptime strptimeFmt2 (cleanedDate raw) = none →
     tryStrptime strptimeFmt3 (cleanedDate raw) = none →
     tryStrptime strptimeFmt4 (cleanedDate raw) = none →
     dateFromDigitRuns (cleanedDate raw) = none →
     parse_date today raw = today) := by
  refine ⟨?_, ?_, ?_⟩
  · unfold parse_date
    rcases h1 : tryStrptime strptimeFmt1 (cleanedDate raw) with _ | d1
    · rcases h2 : tryStrptime strptimeFmt2 (cleanedDate raw) with _ | d2
      · rcases h3 : tryStrptime strptimeFmt3 (cleanedDate raw) with _ | d3
        · rcases h4 : tryStrptime strptimeFmt4 (cleanedDate raw) with _ | d4
          · rcases h5 : dateFromDigitRuns (cleanedDate raw) with _ | d5
            · simp [h1, h2, h3, h4, h5, htoday]
            · simpa [h1, h2, h3, h4, h5] using dateFromDigitRuns_valid h5
          · simpa [h1, h2, h3, h4] using tryStrptime_valid h4
        · simpa [h1, h2, h3] using tryStrptime_valid h3
      · simpa [h1, h2] using tryStrptime_valid h2
    · simpa [h1] using tryStrptime_valid h1
  · intro d hd
    unfold parse_date
    simp [hd]
  · intro h1 h2 h3 h4 h5
    unfold parse_date
    simp [h1, h2, h3, h4, h5]

example :
    parseRows ⟨2025, 1, 1⟩ 0
      [[⟨["Apr. 02, 2026(Feb. 26, 2026)"], []⟩, ⟨["Example Corp"], []⟩,
        ⟨["1234"], []⟩, ⟨[], []⟩, ⟨[], []⟩, ⟨[], []⟩, ⟨["3,720"], []⟩, ⟨[], []⟩],
       [⟨["Growth"], []⟩]] =
      [⟨"Example Corp", "1234", "Growth", ⟨2026, 4, 2⟩,
        parse_price_text "3,720", none, 0⟩] := by
  decide

/-- C3: the parser consumes two rows exactly when the first row of the
pair has at least 8 cells, contributing `pairItems` (at most one record,
exactly one when company name and ticker are non-empty) and continuing
independently with the remaining rows; a first row with fewer than 8
cells is skipped by advancing a single row. -/
theorem c3_parse_rows_two_row_consumption (today : DateYMD) (now : Int)
    (r1 r2 : Row) (rest : List Row) :
    (parseRows today now (r1 :: r2 :: rest) =
      if r1.length < 8 then parseRows today now (r2 :: rest)
      else pairItems today now r1 r2 ++ parseRows today now rest) ∧
    (pairItems today now r1 r2).length ≤ 1 ∧
    (rowCompany r1 ≠ "" → rowTicker r1 ≠ "" →
      (pairItems today now r1 r2).length = 1) := by
  refine ⟨?_, ?_, ?_⟩
  · by_cases h : r1.length < 8
    · simp [parseRows, h]
    · simp [parseRows, h, pairItems, rowCompany, rowTicker, pairMarket, pairPdf]
  · rw [pairItems]
    split <;> simp
  · intro h1 h2
    rw [pairItems, if_neg (by simp [h1, h2])]
    simp

/-- C3 witness: a malformed first row (fewer than 8 cells) advances by
one row only, and a well-formed pair contributes exactly one record. -/
theorem c3_parse_rows_two_row_consumption_witness :
    (parseRows ⟨2025, 1, 1⟩ 0 ([⟨["x"], []⟩] :: [⟨["y"], []⟩] :: []) =
      parseRows ⟨2025, 1, 1⟩ 0 ([⟨["y"], []⟩] :: [])) ∧
    (pairItems ⟨2025, 1, 1⟩ 0
      [⟨["d"], []⟩, ⟨["Example Corp"], []⟩, ⟨["1234"], []⟩, ⟨[], []⟩, ⟨[], []⟩,
       ⟨[], []⟩, ⟨["3,720"], []⟩, ⟨[], []⟩] [⟨["Growth"], []⟩]).length = 1 := by
  constructor
  · have h := (c3_parse_rows_two_row_consumption ⟨2025, 1, 1⟩ 0
      [⟨["x"], []⟩] [⟨["y"], []⟩] []).1
    rw [h, if_pos (by decide)]
  · exact (c3_parse_rows_two_row_consumption ⟨2025, 1, 1⟩ 0
      [⟨["d"], []⟩, ⟨["Example Corp"], []⟩, ⟨["1234"], []⟩, ⟨[], []⟩, ⟨[], []⟩,
       ⟨[], []⟩, ⟨["3,720"], []⟩, ⟨[], []⟩] [⟨["Growth"], []⟩] []).2.2
      (by decide) (by decide)

theorem c4_aux (today : DateYMD) (now : Int) :
    ∀ n (rows : List Row), rows.length ≤ n →
      ∀ item ∈ parseRows today now rows,
        item.company_name ≠ "" ∧ item.ticker ≠ "" := by
  intro n
  induction n with
  | zero =>
    intro rows hlen item hmem
    rcases rows with _ | ⟨r1, rest⟩
    · simp [parseRows] at hmem
    · simp at hlen
  | succ n ih =>
    intro rows hlen item hmem
    rcases rows with _ | ⟨r1, rest⟩
    · simp [parseRows] at hmem
    · rw [parseRows] at hmem
      by_cases hl : r1.length < 8
      · rw [if_pos hl] at hmem
        exact ih rest (by simpa using Nat.le_of_succ_le_succ hlen) item hmem
      · rw [if_neg hl] at hmem
        rcases rest with _ | ⟨r2, rest2⟩
        · dsimp only at hmem
          split at hmem
          · simp at hmem
          · rename_i hguard
            simp at hmem
            subst hmem
            push_neg at hguard
            exact hguard
        · dsimp only at hmem
          rw [List.mem_append] at hmem
          rcases hmem with hmem | hmem
          · split at hmem
            · simp at hmem
            · rename_i hguard
              simp at hmem
              subst hmem
              push_neg at hguard
              exact hguard
          · refine ih rest2 ?_ item hmem
            simp at hlen
            omega

/-- C4: every record the row loop emits has a non-empty company name and
a non-empty ticker; a reconstructed pair missing either contributes
nothing. -/
theorem c4_parse_rows_nonempty_fields (today : DateYMD) (now : Int)
    (rows : List Row) (item : IpoItem) (hmem : item ∈ parseRows today now rows) :
    item.company_name ≠ "" ∧ item.ticker ≠ "" :=
  c4_aux today now rows.length rows (Nat.le_refl _) item hmem

/-- C4 witness: the emitted record of a concrete well-formed pair has
non-empty company name and ticker. -/
theorem c4_parse_rows_nonempty_fields_witness :
    (⟨"Example Corp", "1234", "Growth", ⟨2026, 4, 2⟩,
      parse_price_text "3,720", none, 0⟩ : IpoItem).company_name ≠ "" ∧
    (⟨"Example Corp", "1234", "Growth", ⟨2026, 4, 2⟩,
      parse_price_text "3,720", none, 0⟩ : IpoItem).ticker ≠ "" :=
  c4_parse_rows_nonempty_fields ⟨2025, 1, 1⟩ 0
    [[⟨["Apr. 02, 2026(Feb. 26, 2026)"], []⟩, ⟨["Example Corp"], []⟩,
      ⟨["1234"], []⟩, ⟨[], []⟩, ⟨[], []⟩, ⟨[], []⟩, ⟨["3,720"], []⟩, ⟨[], []⟩],
     [⟨["Growth"], []⟩]] _ (by decide)

/-- C5 witness: the end-to-end date example evaluates through the theorem
at a concrete valid `today`. -/
theorem c5_parse_date_total_valid_witness :
    isValidDate (parse_date ⟨2025, 1, 1⟩ "Apr. 02, 2026(Feb. 26, 2026)") = true :=
  (c5_parse_date_total_valid ⟨2025, 1, 1⟩ "Apr. 02, 2026(Feb. 26, 2026)" (by decide)).1

/-- C9: the four documented price examples, and `_parse_price_text`
returns `none` exactly when the comma-stripped, digit-and-dot-filtered
remainder is not parseable as a number (no digit at all, or more than one
decimal point); on every other input it returns the decimal value.  The
function is total, so it never raises. -/
theorem c9_parse_price_text_spec :
    parse_price_text "3,720" = some 3720 ∧
    parse_price_text "1,339.3" = some ((13393 : ℚ) / 10) ∧
    parse_price_text "" = none ∧
    parse_price_text "N/A" = none ∧
    ∀ s : String, parse_price_text s = none ↔
      ((priceDigits s).any Char.isDigit = false ∨ 2 ≤ (priceDigits s).count '.') := by
  refine ⟨?_, ?_, by decide, by decide, ?_⟩
  · have hd : priceDigits "3,720" = ['3', '7', '2', '0'] := by decide
    rw [parse_price_text, hd, floatOfDigits, if_pos (by decide), ratOfDigits]
    have hip : intPart ['3', '7', '2', '0'] = ['3', '7', '2', '0'] := by decide
    have hfp : fracPart ['3', '7', '2', '0'] = [] := by decide
    rw [hip, hfp]
    norm_num [Rat.mkRat_eq_divInt, Rat.divInt_eq_div,
      show digitsToNat ['3', '7', '2', '0'] = 3720 from by decide,
      show digitsToNat ([] : List Char) = 0 from by decide]
  · have hd : priceDigits "1,339.3" = ['1', '3', '3', '9', '.', '3'] := by decide
    rw [parse_price_text, hd, floatOfDigits, if_pos (by decide), ratOfDigits]
    have hip : intPart ['1', '3', '3', '9', '.', '3'] = ['1', '3', '3', '9'] := by decide
    have hfp : fracPart ['1', '3', '3', '9', '.', '3'] = ['3'] := by decide
    rw [hip, hfp]
    norm_num [Rat.mkRat_eq_divInt, Rat.divInt_eq_div,
      show digitsToNat ['1', '3', '3', '9'] = 1339 from by decide,
      show digitsToNat ['3'] = 3 from by decide]
  · intro s
    rw [parse_price_text, floatOfDigits]
    by_cases hA : (priceDigits s).any Char.isDigit = true
    · by_cases hC : (priceDigits s).count '.' ≤ 1
      · rw [if_pos (by simp [hA, hC])]
        simp [hA]
        omega
      · rw [if_neg (by simp [hC])]
        simp [hA]
        omega
    · rw [if_neg (by simp [hA])]
      simp [Bool.not_eq_true] at hA
      simp [hA]
      exact Or.inl hA

example : extractBullets " ・A" = ["・A"] := by decide
example : extractBullets "・A\n・B" = ["A", "B"] := by decide
example : extractBullets "- A\nnoise\n• B" = ["A", "B"] := by decide
example : extractBullets "plain text" = ["plain text"] := by decide

theorem isPrefixOf_self_append (p q : List Char) : p.isPrefixOf (p ++ q) = true := by
  simp [ List.isPrefixOf_iff_prefix]

theorem listContainsSub_append_left (pat s a : List Char) (h : listContainsSub pat s = true) :
    listContainsSub pat (a ++ s) = true := by
  induction a with
  | nil => simpa using h
  | cons c a ih =>
    rw [List.cons_append, listContainsSub]
    simp [ih]

theorem listContainsSub_self_append (pat q : List Char) : listContainsSub pat (pat ++ q) = true := by
  cases pat with
  | nil =>
    cases q with
    | nil => rfl
    | cons c rest =>
      show listContainsSub [] (c :: rest) = true
      rw [listContainsSub]
      simp [List.isPrefixOf]
  | cons p ps =>
    show listContainsSub (p :: ps) (p :: (ps ++ q)) = true
    rw [listContainsSub]
    have h := isPrefixOf_self_append (p :: ps) q
    rw [List.cons_append] at h
    simp [h]

theorem strContains_middle (a pat b : String) :
    strContains (a ++ pat ++ b) pat = true := by
  show listContainsSub pat.data (a ++ pat ++ b).data = true
  have hd : (a ++ pat ++ b).data = a.data ++ (pat.data ++ b.data) := by
    show (a.data ++ pat.data) ++ b.data = a.data ++ (pat.data ++ b.data)
    exact List.append_assoc _ _ _
  rw [hd]
  exact listContainsSub_append_left _ _ _ (listContainsSub_self_append _ _)

theorem strContains_append_left (a s pat : String) (h : strContains s pat = true) :
    strContains (a ++ s) pat = true := by
  show listContainsSub pat.data (a ++ s).data = true
  exact listContainsSub_append_left _ _ _ h

/-- C6 counterexample: a completion line whose glyph is preceded by
whitespace is kept, but `lstrip("・•-")` on the original line removes
nothing, so the emitted bullet still carries the glyph, against the
claimed "glyph and surrounding whitespace removed". -/
theorem c6_counterexample :
    extractBullets " ・A" = ["・A"] ∧
    claimBulletOfLine " ・A" = "A" ∧
    ("・A" : String) ≠ "A" := by
  refine ⟨by decide, by decide, by decide⟩

/-- C6 amended: the post-processing always returns a non-empty list, and
equals the glyph-prefixed lines mapped through
`lstrip("・•-").strip()` applied to the original (unstripped) line — so
leading whitespace prevents glyph removal — with the whole stripped
completion as the single bullet when no line qualifies. -/
theorem c6_extract_bullets_amended (content : String) :
    extractBullets content ≠ [] ∧
    extractBullets content =
      (if ((pySplitlines content).filter isBulletLine).isEmpty then
        [pyStripStr content]
       else ((pySplitlines content).filter isBulletLine).map bulletOfLine) := by
  have hmap : (((pySplitlines content).filter isBulletLine).map bulletOfLine).isEmpty
      = ((pySplitlines content).filter isBulletLine).isEmpty := by
    rcases (pySplitlines content).filter isBulletLine with _ | _ <;> simp
  constructor
  · simp only [extractBullets]
    split
    · simp
    · rename_i h
      simpa using h
  · simp only [extractBullets, hmap]

/-- C7: with `AZ_OPENAI_ENDPOINT` or `AZ_OPENAI_API_KEY` unset the
summarizer returns exactly one bullet, that bullet contains the code and
names both missing settings, and the result is the same for any two
unconfigured environments and any two input texts. -/
theorem c7_summarizer_unconfigured_deterministic (env1 env2 : SummaryEnv)
    (code t1 t2 : String)
    (h1 : env1.endpoint = "" ∨ env1.apiKey = "")
    (h2 : env2.endpoint = "" ∨ env2.apiKey = "") :
    summarize_with_llm env1 code t1 = .ok [placeholderBullet code] ∧
    summarize_with_llm env1 code t1 = summarize_with_llm env2 code t2 ∧
    strContains (placeholderBullet code) code = true ∧
    strContains (placeholderBullet code) "AZ_OPENAI_ENDPOINT" = true ∧
    strContains (placeholderBullet code) "AZ_OPENAI_API_KEY" = true := by
  have hs1 : summarize_with_llm env1 code t1 = .ok [placeholderBullet code] := by
    rw [summarize_with_llm, if_pos h1]
  have hs2 : summarize_with_llm env2 code t2 = .ok [placeholderBullet code] := by
    rw [summarize_with_llm, if_pos h2]
  refine ⟨hs1, hs1.trans hs2.symm, ?_, ?_, ?_⟩
  · rw [placeholderBullet]
    exact strContains_middle _ _ _
  · rw [placeholderBullet]
    exact strContains_append_left _ _ _ (by decide)
  · rw [placeholderBullet]
    exact strContains_append_left _ _ _ (by decide)

/-- C7 witness: two differently unconfigured environments and two
different texts give the same single placeholder bullet for code 1234. -/
theorem c7_summarizer_unconfigured_deterministic_witness :
    summarize_with_llm envUnconfigured "1234" "text-a" =
      .ok [placeholderBullet "1234"] ∧
    summarize_with_llm envUnconfigured "1234" "text-a" =
      summarize_with_llm envNoKey "1234" "text-b" ∧
    strContains (placeholderBullet "1234") "1234" = true ∧
    strContains (placeholderBullet "1234") "AZ_OPENAI_ENDPOINT" = true ∧
    strContains (placeholderBullet "1234") "AZ_OPENAI_API_KEY" = true :=
  c7_summarizer_unconfigured_deterministic envUnconfigured envNoKey "1234"
    "text-a" "text-b" (Or.inl rfl) (Or.inr rfl)

theorem summaryMiss_ok (env : SummaryEnv) (cache : SummaryCache) (now : Int)
    (code : String)
    (h : env.endpoint = "" ∨ env.apiKey = "" ∨
      ∀ u, ∃ s, env.completion u = Except.ok s) :
    ∃ r c', summaryMiss env cache now code = .ok (r, c') := by
  by_cases hcfg : env.endpoint = "" ∨ env.apiKey = ""
  · refine ⟨⟨code, [placeholderBullet code], false, now⟩,
      cacheInsert code (⟨code, [placeholderBullet code], false, now⟩, now) cache, ?_⟩
    simp only [summaryMiss, summarize_with_llm, if_pos hcfg]
  · have h3 : ∀ u, ∃ s, env.completion u = Except.ok s := by
      rcases h with h | h | h
      · exact absurd (Or.inl h) hcfg
      · exact absurd (Or.inr h) hcfg
      · exact h
    obtain ⟨s, hs⟩ := h3 ⟨(llmUserContent code (pdfText env)).data.take 8000⟩
    refine ⟨⟨code, extractBullets s, false, now⟩,
      cacheInsert code (⟨code, extractBullets s, false, now⟩, now) cache, ?_⟩
    simp only [summaryMiss, summarize_with_llm, if_neg hcfg, hs]

/-- C1 counterexample: with the backend configured but its call raising,
`get_ipo_summary` propagates the exception instead of returning a
response — so not every sub-component failure is absorbed. -/
theorem c1_counterexample :
    get_ipo_summary envLlmDown [] 0 "1234" = .error () := rfl

/-- C1 amended: `get_ipo_summary` returns a response without raising
whenever the generation backend is unconfigured or its call succeeds; on
that path a locator miss yields empty extracted text, an extraction
failure yields empty text, and an unconfigured backend yields the
placeholder bullet.  A configured backend whose call raises propagates
the exception (see the counterexample). -/
theorem c1_get_ipo_summary_no_raise_amended (env : SummaryEnv)
    (cache : SummaryCache) (now : Int) (code : String)
    (h : env.endpoint = "" ∨ env.apiKey = "" ∨
      ∀ u, ∃ s, env.completion u = Except.ok s) :
    (∃ r c', get_ipo_summary env cache now code = .ok (r, c')) ∧
    (env.locator = none → pdfText env = "") ∧
    (∀ url, env.locator = some url → env.extract url = .error () →
      pdfText env = "") ∧
    ((env.endpoint = "" ∨ env.apiKey = "") →
      ∀ t, summarize_with_llm env code t = .ok [placeholderBullet code]) := by
  refine ⟨?_, ?_, ?_, ?_⟩
  · rcases hL : List.lookup code cache with _ | ⟨r, t⟩
    · simp only [get_ipo_summary, hL]
      exact summaryMiss_ok env cache now code h
    · simp only [get_ipo_summary, hL]
      by_cases ht : now - t < cacheTTL
      · simp only [if_pos ht]
        exact ⟨_, _, rfl⟩
      · simp only [if_neg ht]
        exact summaryMiss_ok env cache now code h
  · intro h0
    simp only [pdfText, h0]
  · intro url hu he
    simp only [pdfText, hu, he]
  · intro hcfg t
    rw [summarize_with_llm, if_pos hcfg]

/-- C1 witness: with the backend unconfigured the hypotheses hold and the
fallbacks evaluate concretely. -/
theorem c1_get_ipo_summary_no_raise_amended_witness :
    pdfText envUnconfigured = "" ∧
    summarize_with_llm envUnconfigured "1234" "anything" =
      .ok [placeholderBullet "1234"] :=
  ⟨(c1_get_ipo_summary_no_raise_amended envUnconfigured [] 0 "1234"
      (Or.inl rfl)).2.1 rfl,
   (c1_get_ipo_summary_no_raise_amended envUnconfigured [] 0 "1234"
      (Or.inl rfl)).2.2.2 (Or.inl rfl) "anything"⟩

/-- C2: a first call on a code absent from the cache that returns
successfully stores its record; a second call within the TTL returns the
same code, identical bullets, the same `generated_at`, with
`cached=true`, while the first call had `cached=false`. -/
theorem c2_cache_round_trip (env env2 : SummaryEnv) (cache : SummaryCache)
    (t0 t1 : Int) (code : String) (resp1 : IpoSummaryResponse)
    (cache1 : SummaryCache)
    (hmiss : List.lookup code cache = none)
    (h1 : get_ipo_summary env cache t0 code = .ok (resp1, cache1))
    (hfresh : t1 - t0 < cacheTTL) :
    resp1.cached = false ∧ resp1.code = code ∧ resp1.generated_at = t0 ∧
    get_ipo_summary env2 cache1 t1 code =
      .ok (⟨resp1.code, resp1.bullets, true, resp1.generated_at⟩, cache1) := by
  rw [get_ipo_summary, hmiss, summaryMiss] at h1
  rcases hs : summarize_with_llm env code (pdfText env) with e | bullets <;>
    rw [hs] at h1
  · cases h1
  · simp only [Except.ok.injEq, Prod.mk.injEq] at h1
    obtain ⟨hr, hc⟩ := h1
    subst hr
    subst hc
    refine ⟨rfl, rfl, rfl, ?_⟩
    have hlk : List.lookup code
        (cacheInsert code (⟨code, bullets, false, t0⟩, t0) cache) =
        some (⟨code, bullets, false, t0⟩, t0) := by
      simp [cacheInsert, List.lookup]
    simp [get_ipo_summary, hlk, hfresh]

/-- C2 witness: concrete round trip through an unconfigured backend at
times 0 and 5 for code 1234. -/
theorem c2_cache_round_trip_witness :
    (⟨"1234", [placeholderBullet "1234"], false, 0⟩ : IpoSummaryResponse).cached
      = false ∧
    (⟨"1234", [placeholderBullet "1234"], false, 0⟩ : IpoSummaryResponse).code
      = "1234" ∧
    (⟨"1234", [placeholderBullet "1234"], false, 0⟩ :
      IpoSummaryResponse).generated_at = 0 ∧
    get_ipo_summary envLlmDown
      [("1234", (⟨"1234", [placeholderBullet "1234"], false, 0⟩ :
        IpoSummaryResponse), 0)] 5 "1234" =
      .ok (⟨"1234", [placeholderBullet "1234"], true, 0⟩,
        [("1234", (⟨"1234", [placeholderBullet "1234"], false, 0⟩ :
          IpoSummaryResponse), 0)]) :=
  c2_cache_round_trip envUnconfigured envLlmDown [] 0 5 "1234"
    ⟨"1234", [placeholderBullet "1234"], false, 0⟩
    [("1234", (⟨"1234", [placeholderBullet "1234"], false, 0⟩ :
      IpoSummaryResponse), 0)]
    rfl rfl (by decide)

/-- C10: a cache hit leaves the cache exactly as it was — no key added,
removed or overwritten — and returns a freshly built copy with
`cached=true`, the stored record (still holding its original `cached`
flag) remaining in place for later hits. -/
theorem c10_cache_hit_frame (env : SummaryEnv) (cache : SummaryCache)
    (now : Int) (code : String) (resp : IpoSummaryResponse) (t : Int)
    (hlook : List.lookup code cache = some (resp, t))
    (hfresh : now - t < cacheTTL) :
    get_ipo_summary env cache now code =
      .ok (⟨resp.code, resp.bullets, true, resp.generated_at⟩, cache) := by
  simp [get_ipo_summary, hlook, hfresh]

/-- C10 witness: a concrete fresh hit returns the copy and the untouched
cache still holding the `cached=false` record. -/
theorem c10_cache_hit_frame_witness :
    get_ipo_summary envLlmDown
      [("7777", (⟨"7777", ["b"], false, 10⟩ : IpoSummaryResponse), 10)]
      20 "7777" =
      .ok (⟨"7777", ["b"], true, 10⟩,
        [("7777", (⟨"7777", ["b"], false, 10⟩ : IpoSummaryResponse), 10)]) :=
  c10_cache_hit_frame envLlmDown
    [("7777", (⟨"7777", ["b"], false, 10⟩ : IpoSummaryResponse), 10)]
    20 "7777" ⟨"7777", ["b"], false, 10⟩ 10 rfl (by decide)

/-- C8: whenever `_fetch_and_parse` raises either recoverable error,
`get_latest_ipos` returns the empty response — indistinguishable from a
successful parse that found no listings. -/
theorem c8_get_latest_ipos_degrades (fetch : Except IpoErr Page)
    (today : DateYMD) (now : Int) (e : IpoErr)
    (h : fetch_and_parse fetch today now = .error e) :
    get_latest_ipos fetch today now = ⟨[], 0, now⟩ ∧
    ∀ fetch2, fetch_and_parse fetch2 today now = .ok [] →
      get_latest_ipos fetch2 today now = ⟨[], 0, now⟩ := by
  constructor
  · rw [get_latest_ipos, h]
  · intro f2 h2
    rw [get_latest_ipos, h2]
    rfl

/-- C8 witness: a transport error and an empty parsed table produce the
same empty response. -/
theorem c8_get_latest_ipos_degrades_witness :
    get_latest_ipos (.error (.externalAPI "JPX" "Timeout")) ⟨2025, 1, 1⟩ 0 =
      ⟨[], 0, 0⟩ ∧
    get_latest_ipos (.ok ⟨some []⟩) ⟨2025, 1, 1⟩ 0 = ⟨[], 0, 0⟩ :=
  ⟨(c8_get_latest_ipos_degrades (.error (.externalAPI "JPX" "Timeout"))
      ⟨2025, 1, 1⟩ 0 (.externalAPI "JPX" "Timeout") rfl).1,
   (c8_get_latest_ipos_degrades (.error (.externalAPI "JPX" "Timeout"))
      ⟨2025, 1, 1⟩ 0 (.externalAPI "JPX" "Timeout") rfl).2 (.ok ⟨some []⟩) rfl⟩

end CapitalLens
